import Mathlib

/-!
Shallow embedding of the STEM keyword detector of this repository
(`cloudflare-workers/keyword-detector/src/KeywordDetector.js`, its keyword
database `fieldKeywords.js`, and the worker request handler in the same
bundle; the TypeScript variant of the detector appears as a second source
file and is embedded where it differs).

Modelling conventions:
* JavaScript numbers are modelled as exact rationals (`ℚ`).
* A word object's optional `confidence` field is `Option ℚ`; the JS
  expression `word.confidence || 0.9` maps `none` and `some 0` to `0.9`
  (both `undefined` and `0` are falsy).
* `Map` and plain-object dictionaries are modelled as insertion-ordered
  association lists.
* The JS `Array.prototype.sort` (stable in modern engines) is modelled by
  `List.mergeSort`, which is a stable merge sort.
* `detectKeywords`'s dynamic argument check (`!words || !Array.isArray`)
  is modelled by an `Option (List Word)` argument: `none` stands for
  `null`/`undefined`/non-array input, `some ws` for an actual array.
-/

/-! ### JS string primitives (ASCII fragment used by the detector) -/

/-- JS `String.prototype.toLowerCase` restricted to the ASCII data this
program handles. -/
def jsToLower (s : String) : String :=
  String.mk (s.data.map Char.toLower)

/-- JS `String.prototype.trim` (leading and trailing whitespace removed). -/
def jsTrim (s : String) : String :=
  String.mk (((s.data.dropWhile Char.isWhitespace).reverse.dropWhile
    Char.isWhitespace).reverse)

/-- JS `keyword.split(/\s+/).length`; dictionary keywords separate their
words by single spaces, so splitting on the space character agrees with the
regular expression split. -/
def jsWordCount (s : String) : ℕ :=
  (s.split (fun c => c = ' ')).length

/-! ### Data model -/

/-- A word object handed to `detectKeywords`
(`{text, x, y, width, height, confidence?}`). -/
structure Word where
  text : String
  x : ℚ
  y : ℚ
  width : ℚ
  height : ℚ
  confidence : Option ℚ
deriving DecidableEq, Repr

/-- A bounding box `{x, y, width, height}`. -/
structure Position where
  x : ℚ
  y : ℚ
  width : ℚ
  height : ℚ
deriving DecidableEq, Repr

/-- One entry of a keyword-index bucket: `{field, keyword, wordCount}`. -/
structure KeywordMatch where
  field : String
  keyword : String
  wordCount : ℕ
deriving DecidableEq, Repr

/-- A detection record pushed by `detectKeywords`. -/
structure DetectedKeyword where
  text : String
  normalizedText : String
  field : String
  confidence : ℚ
  position : Position
  wordIndices : List ℕ
deriving DecidableEq, Repr

/-- The constructor's configuration object; each field may be absent. -/
structure DetectorConfig where
  targetFields : Option (List String)
  minConfidence : Option ℚ
  caseSensitive : Option Bool
  multiWordMatching : Option Bool
deriving DecidableEq, Repr

/-- A `KeywordDetector` instance after construction. -/
structure KeywordDetector where
  targetFields : List String
  minConfidence : ℚ
  caseSensitive : Bool
  multiWordMatching : Bool
  keywordIndex : List (String × List KeywordMatch)
deriving DecidableEq, Repr

/-- The object returned by `getStatistics`. -/
structure KeywordStatistics where
  total : ℕ
  byField : List (String × ℕ)
  averageConfidence : ℚ
  uniqueTerms : ℕ
deriving DecidableEq, Repr

/-- The object returned by `getConfig`. -/
structure ConfigView where
  targetFields : List String
  minConfidence : ℚ
  caseSensitive : Bool
  multiWordMatching : Bool
  indexedKeywords : ℕ
deriving DecidableEq, Repr

/-! ### The keyword database (`fieldKeywords.js`), transcribed verbatim -/

/-- `FIELD_KEYWORDS`: the static field → keyword-list table. -/
def FIELD_KEYWORDS : List (String × List String) := [
  ("group theory", [
    "group", "subgroup", "homomorphism", "isomorphism", "automorphism",
    "normal subgroup", "quotient group", "coset", "lagrange",
    "sylow", "abelian", "cyclic", "permutation", "symmetric group",
    "dihedral", "free group", "presentation", "generator", "relation",
    "group action", "orbit", "stabilizer", "conjugacy", "centralizer",
    "normalizer", "composition series", "simple group", "solvable",
    "nilpotent", "p-group", "group extension", "semidirect product"]),
  ("topology", [
    "topological space", "open set", "closed set", "neighborhood",
    "metric space", "hausdorff", "compact", "connected", "continuous",
    "homeomorphism", "homotopy", "fundamental group", "homology",
    "cohomology", "manifold", "covering space", "fiber bundle",
    "simplicial complex", "CW complex", "path", "loop", "contractible",
    "simply connected", "universal cover", "quotient space",
    "product topology", "subspace topology", "basis", "subbasis",
    "separation axiom", "normal space", "regular space", "metrizable",
    "embedding", "retraction", "deformation retract"]),
  ("differential geometry", [
    "manifold", "smooth manifold", "tangent space", "cotangent space",
    "vector field", "differential form", "tensor", "metric tensor",
    "riemannian manifold", "curvature", "geodesic", "connection",
    "covariant derivative", "lie derivative", "exterior derivative",
    "wedge product", "pushforward", "pullback", "immersion", "submersion",
    "embedding", "bundle", "section", "fiber bundle", "principal bundle",
    "vector bundle", "lie group", "lie algebra", "killing form",
    "exponential map", "parallel transport", "holonomy", "torsion",
    "ricci curvature", "scalar curvature", "gauss-bonnet", "chern class"]),
  ("algebra", [
    "ring", "field", "module", "ideal", "homomorphism", "polynomial",
    "algebraic structure", "vector space", "linear transformation",
    "basis", "dimension", "rank", "kernel", "image", "eigenvalue",
    "eigenvector", "determinant", "trace", "characteristic polynomial",
    "jordan form", "matrix", "linear algebra", "bilinear form",
    "quadratic form", "inner product", "orthogonal", "unitary",
    "hermitian", "galois theory", "field extension", "algebraic closure",
    "commutative algebra", "prime ideal", "maximal ideal", "localization",
    "noetherian", "artinian", "integral domain", "unique factorization"]),
  ("analysis", [
    "limit", "continuity", "derivative", "integral", "convergence",
    "sequence", "series", "uniform convergence", "pointwise convergence",
    "cauchy sequence", "complete", "metric space", "normed space",
    "banach space", "hilbert space", "bounded", "compact", "dense",
    "measure", "measurable", "lebesgue integral", "measure theory",
    "probability measure", "borel set", "sigma algebra", "integration",
    "fourier series", "fourier transform", "functional", "operator",
    "linear operator", "bounded operator", "spectrum", "eigenspace",
    "weak convergence", "strong convergence", "l-p space", "sobolev space",
    "distribution", "tempered distribution", "convolution", "regularity"]),
  ("number theory", [
    "prime", "divisibility", "gcd", "lcm", "congruence", "modular arithmetic",
    "diophantine equation", "quadratic reciprocity", "euler totient",
    "fermat little theorem", "chinese remainder theorem", "primitive root",
    "quadratic residue", "legendre symbol", "jacobi symbol",
    "continued fraction", "pell equation", "algebraic number",
    "transcendental", "cyclotomic field", "class number", "unit group",
    "dedekind domain", "ideal class group", "ramification", "splitting",
    "l-function", "zeta function", "riemann hypothesis", "prime number theorem",
    "elliptic curve", "modular form", "automorphic form"]),
  ("category theory", [
    "category", "functor", "natural transformation", "morphism",
    "object", "arrow", "composition", "identity", "isomorphism",
    "monomorphism", "epimorphism", "product", "coproduct", "limit",
    "colimit", "adjoint", "universal property", "yoneda lemma",
    "representable functor", "monad", "comonad", "abelian category",
    "exact sequence", "kernel", "cokernel", "image", "pullback",
    "pushout", "equalizer", "coequalizer", "topos", "sheaf",
    "presheaf", "grothendieck topology", "cartesian closed"]),
  ("algebraic topology", [
    "homotopy", "fundamental group", "covering space", "homology",
    "cohomology", "singular homology", "simplicial homology",
    "cellular homology", "de rham cohomology", "exact sequence",
    "mayer-vietoris", "universal coefficient theorem", "kunneth formula",
    "euler characteristic", "betti number", "homology group",
    "cohomology ring", "cup product", "cap product", "poincare duality",
    "lefschetz fixed point", "degree", "winding number", "index",
    "characteristic class", "chern class", "stiefel-whitney class",
    "pontryagin class", "spectral sequence", "fibration", "cofibration"]),
  ("logic", [
    "proposition", "predicate", "quantifier", "proof", "theorem",
    "axiom", "inference rule", "tautology", "contradiction",
    "satisfiability", "validity", "soundness", "completeness",
    "model", "interpretation", "first-order logic", "higher-order logic",
    "modal logic", "temporal logic", "intuitionistic logic",
    "set theory", "zfc", "axiom of choice", "continuum hypothesis",
    "ordinal", "cardinal", "transfinite induction", "forcing",
    "consistency", "independence", "godel incompleteness",
    "recursion theory", "turing machine", "decidability", "computability"]),
  ("combinatorics", [
    "permutation", "combination", "binomial coefficient", "generating function",
    "recurrence relation", "partition", "graph", "tree", "path", "cycle",
    "coloring", "chromatic number", "matching", "perfect matching",
    "hall marriage theorem", "ramsey theory", "pigeonhole principle",
    "inclusion-exclusion", "mobius inversion", "poset", "lattice",
    "boolean algebra", "design theory", "block design", "steiner system",
    "coding theory", "error-correcting code", "hamming distance",
    "linear code", "cyclic code", "enumeration", "polya enumeration",
    "stirling number", "catalan number", "fibonacci", "bell number"]),
  ("algorithms & data structures", [
    "algorithm", "complexity", "data structure", "sorting", "searching",
    "graph algorithm", "tree", "binary tree", "hash table", "heap",
    "stack", "queue", "linked list", "array", "dynamic programming",
    "greedy algorithm", "divide and conquer", "backtracking", "recursion",
    "time complexity", "space complexity", "big O", "asymptotic analysis",
    "NP-complete", "NP-hard", "polynomial time", "breadth-first search",
    "depth-first search", "shortest path", "minimum spanning tree",
    "topological sort", "dynamic array", "balanced tree", "AVL tree",
    "red-black tree", "B-tree", "trie", "suffix tree"]),
  ("machine learning", [
    "neural network", "deep learning", "supervised learning", "unsupervised learning",
    "reinforcement learning", "training", "testing", "validation", "model",
    "dataset", "feature", "label", "classification", "regression",
    "clustering", "gradient descent", "backpropagation", "activation function",
    "convolutional neural network", "recurrent neural network", "transformer",
    "attention mechanism", "overfitting", "underfitting", "regularization",
    "dropout", "batch normalization", "loss function", "optimizer",
    "hyperparameter", "cross-validation", "precision", "recall", "F1 score",
    "support vector machine", "decision tree", "random forest", "k-means",
    "principal component analysis", "dimensionality reduction"]),
  ("operating systems", [
    "operating system", "kernel", "thread", "process", "scheduling",
    "context switch", "memory management", "virtual memory", "paging",
    "segmentation", "cache", "TLB", "page table", "memory hierarchy",
    "file system", "inode", "disk scheduling", "deadlock", "semaphore",
    "mutex", "synchronization", "race condition", "critical section",
    "interrupt", "system call", "user space", "kernel space", "device driver",
    "buffer", "I/O scheduling", "CPU scheduling", "priority scheduling",
    "round robin", "multiprocessing", "multithreading", "concurrency"]),
  ("programming languages", [
    "compiler", "interpreter", "syntax", "semantics", "lexical analysis",
    "parsing", "type system", "type checking", "type inference",
    "garbage collection", "memory management", "runtime", "bytecode",
    "abstract syntax tree", "intermediate representation", "optimization",
    "code generation", "static analysis", "dynamic analysis",
    "functional programming", "object-oriented programming", "imperative",
    "declarative", "lambda calculus", "closure", "higher-order function",
    "polymorphism", "inheritance", "encapsulation", "abstraction",
    "concurrency", "parallelism", "immutability", "recursion"]),
  ("databases", [
    "database", "SQL", "NoSQL", "relational database", "transaction",
    "ACID", "atomicity", "consistency", "isolation", "durability",
    "indexing", "B-tree index", "hash index", "query optimization",
    "query plan", "join", "inner join", "outer join", "aggregation",
    "normalization", "denormalization", "primary key", "foreign key",
    "schema", "table", "column", "row", "view", "stored procedure",
    "trigger", "concurrency control", "locking", "two-phase commit",
    "replication", "sharding", "partitioning", "CAP theorem",
    "eventual consistency", "document database", "key-value store",
    "graph database", "time-series database"]),
  ("classical mechanics", [
    "force", "momentum", "energy", "newton", "motion", "kinematics",
    "dynamics", "velocity", "acceleration", "mass", "inertia",
    "conservation of energy", "conservation of momentum", "work",
    "power", "torque", "angular momentum", "rotation", "gravitation",
    "friction", "harmonic oscillator", "simple harmonic motion",
    "pendulum", "center of mass", "moment of inertia", "rigid body",
    "collision", "elastic collision", "inelastic collision",
    "lagrangian mechanics", "hamiltonian mechanics", "action principle",
    "phase space", "canonical coordinates"]),
  ("quantum mechanics", [
    "quantum", "wavefunction", "eigenstate", "eigenvalue", "operator",
    "observable", "measurement", "uncertainty principle", "superposition",
    "entanglement", "quantum state", "hilbert space", "hermitian operator",
    "commutator", "schrodinger equation", "time evolution", "hamiltonian",
    "quantum number", "spin", "pauli matrices", "angular momentum",
    "orbital", "electron", "photon", "particle", "wave-particle duality",
    "quantum field theory", "creation operator", "annihilation operator",
    "fock space", "second quantization", "perturbation theory",
    "density matrix", "mixed state", "pure state"]),
  ("thermodynamics", [
    "entropy", "temperature", "heat", "energy", "equilibrium",
    "statistical mechanics", "partition function", "free energy",
    "internal energy", "enthalpy", "gibbs free energy", "helmholtz free energy",
    "first law", "second law", "third law", "zeroth law",
    "reversible process", "irreversible process", "carnot cycle",
    "heat engine", "refrigerator", "heat pump", "efficiency",
    "phase transition", "critical point", "phase diagram",
    "boltzmann distribution", "maxwell-boltzmann", "fermi-dirac",
    "bose-einstein", "microstate", "macrostate", "ensemble"]),
  ("electromagnetism", [
    "electric field", "magnetic field", "maxwell equations", "electromagnetic wave",
    "charge", "current", "voltage", "resistance", "capacitance",
    "inductance", "coulomb law", "gauss law", "ampere law", "faraday law",
    "lorentz force", "electromagnetic induction", "displacement current",
    "poynting vector", "electromagnetic radiation", "polarization",
    "electric potential", "magnetic potential", "vector potential",
    "electric dipole", "magnetic dipole", "multipole expansion",
    "waveguide", "transmission line", "antenna", "electromagnetic field",
    "field strength", "flux", "circulation"]),
  ("relativity", [
    "spacetime", "lorentz transformation", "einstein", "relativistic",
    "special relativity", "general relativity", "metric tensor",
    "time dilation", "length contraction", "simultaneity",
    "four-vector", "minkowski space", "proper time", "worldline",
    "light cone", "causality", "spacetime interval", "invariant",
    "covariant", "contravariant", "tensor", "curvature",
    "riemann tensor", "ricci tensor", "einstein equation",
    "schwarzschild metric", "geodesic", "gravitational field",
    "equivalence principle", "black hole", "event horizon",
    "gravitational wave", "cosmology"]),
  ("organic chemistry", [
    "organic", "hydrocarbon", "functional group", "alkane", "alkene", "alkyne",
    "aromatic", "benzene", "reaction mechanism", "nucleophile", "electrophile",
    "substitution", "elimination", "addition", "oxidation", "reduction",
    "synthesis", "retrosynthesis", "stereochemistry", "chirality", "enantiomer",
    "diastereomer", "conformational analysis", "carbon", "bond",
    "covalent bond", "conjugation", "resonance", "carbocation", "carbanion",
    "radical", "alcohol", "aldehyde", "ketone", "carboxylic acid",
    "ester", "ether", "amine", "amide", "peptide"]),
  ("inorganic chemistry", [
    "inorganic", "coordination compound", "ligand", "metal complex",
    "crystal field theory", "ligand field theory", "coordination number",
    "crystal structure", "lattice", "unit cell", "transition metal",
    "oxidation state", "d-orbital", "f-orbital", "lanthanide", "actinide",
    "main group", "periodic table", "ionic bond", "metallic bond",
    "coordination geometry", "octahedral", "tetrahedral", "square planar",
    "organometallic", "cluster", "solid state", "band theory",
    "semiconductor", "superconductor", "magnetic property", "bioinorganic"]),
  ("physical chemistry", [
    "thermodynamics", "kinetics", "equilibrium", "quantum chemistry",
    "spectroscopy", "rate law", "rate constant", "activation energy",
    "arrhenius equation", "transition state theory", "reaction coordinate",
    "chemical potential", "activity", "fugacity", "phase equilibrium",
    "colligative property", "raoult law", "henry law",
    "electrochemistry", "electrode potential", "nernst equation",
    "galvanic cell", "electrolysis", "molecular orbital theory",
    "HOMO", "LUMO", "valence bond theory", "hybridization",
    "IR spectroscopy", "NMR spectroscopy", "UV-vis spectroscopy",
    "mass spectrometry", "photochemistry", "quantum yield"]),
  ("biochemistry", [
    "protein", "enzyme", "DNA", "RNA", "nucleic acid", "amino acid",
    "peptide bond", "protein structure", "primary structure", "secondary structure",
    "tertiary structure", "quaternary structure", "alpha helix", "beta sheet",
    "metabolism", "catabolism", "anabolism", "glycolysis", "krebs cycle",
    "electron transport chain", "ATP", "phosphorylation", "enzyme kinetics",
    "michaelis-menten", "allosteric regulation", "feedback inhibition",
    "substrate", "active site", "cofactor", "coenzyme", "vitamin",
    "lipid", "carbohydrate", "nucleotide", "base pair", "replication",
    "transcription", "translation", "gene expression", "protein folding"]),
  ("molecular biology", [
    "DNA", "RNA", "protein", "gene", "genome", "chromosome",
    "transcription", "translation", "replication", "mutation",
    "genetic code", "codon", "anticodon", "ribosome", "mRNA", "tRNA", "rRNA",
    "promoter", "enhancer", "transcription factor", "RNA polymerase",
    "splicing", "intron", "exon", "DNA polymerase", "helicase", "ligase",
    "restriction enzyme", "PCR", "cloning", "sequencing", "gene editing",
    "CRISPR", "plasmid", "vector", "transformation", "recombinant DNA",
    "base pair", "nucleotide", "double helix", "complementary", "template strand"]),
  ("cell biology", [
    "cell", "membrane", "organelle", "nucleus", "cytoplasm", "mitochondria",
    "chloroplast", "endoplasmic reticulum", "golgi apparatus", "lysosome",
    "ribosome", "cytoskeleton", "cell wall", "plasma membrane",
    "phospholipid bilayer", "membrane protein", "channel", "receptor",
    "cell division", "mitosis", "meiosis", "cell cycle", "interphase",
    "prophase", "metaphase", "anaphase", "telophase", "cytokinesis",
    "cell signaling", "signal transduction", "second messenger",
    "apoptosis", "differentiation", "stem cell", "tissue", "organ"]),
  ("genetics", [
    "gene", "allele", "chromosome", "DNA", "mutation", "heredity",
    "genotype", "phenotype", "dominant", "recessive", "codominance",
    "incomplete dominance", "mendel", "punnett square", "cross",
    "inheritance", "linkage", "recombination", "crossing over",
    "genetic map", "locus", "homozygous", "heterozygous", "diploid", "haploid",
    "sex-linked", "X-linked", "Y-linked", "autosomal", "pedigree",
    "genetic disorder", "population genetics", "allele frequency",
    "hardy-weinberg equilibrium", "genetic drift", "gene flow",
    "epistasis", "pleiotropy", "polygenic"]),
  ("evolution", [
    "natural selection", "evolution", "adaptation", "species", "darwin",
    "fitness", "survival of the fittest", "common ancestor", "phylogeny",
    "phylogenetic tree", "cladistics", "homology", "analogy",
    "convergent evolution", "divergent evolution", "coevolution",
    "speciation", "allopatric", "sympatric", "reproductive isolation",
    "genetic variation", "mutation", "genetic drift", "gene flow",
    "population", "allele frequency", "microevolution", "macroevolution",
    "fossil record", "vestigial structure", "molecular evolution",
    "molecular clock", "biogeography", "comparative anatomy"]),
  ("ecology", [
    "ecosystem", "population", "community", "biodiversity", "habitat",
    "niche", "food web", "food chain", "trophic level", "producer",
    "consumer", "decomposer", "herbivore", "carnivore", "omnivore",
    "predator", "prey", "symbiosis", "mutualism", "commensalism", "parasitism",
    "competition", "predation", "carrying capacity", "population dynamics",
    "exponential growth", "logistic growth", "limiting factor",
    "succession", "primary succession", "secondary succession", "climax community",
    "biome", "carbon cycle", "nitrogen cycle", "water cycle", "energy flow",
    "pyramid of energy", "pyramid of biomass", "conservation", "endangered species"]),
  ("electrical engineering", [
    "circuit", "voltage", "current", "resistance", "capacitor", "inductor",
    "transistor", "diode", "amplifier", "operational amplifier", "op-amp",
    "filter", "oscillator", "rectifier", "power supply", "transformer",
    "AC circuit", "DC circuit", "impedance", "reactance", "resonance",
    "phasor", "frequency response", "transfer function", "bode plot",
    "feedback", "control system", "analog circuit", "digital circuit",
    "logic gate", "flip-flop", "microprocessor", "microcontroller",
    "FPGA", "signal processing", "modulation", "demodulation", "antenna",
    "electromagnetic compatibility", "power electronics", "motor drive"]),
  ("mechanical engineering", [
    "stress", "strain", "material", "mechanics of materials", "solid mechanics",
    "fluid mechanics", "fluid dynamics", "thermodynamics", "heat transfer",
    "conduction", "convection", "radiation", "mass transfer", "diffusion",
    "statics", "dynamics", "kinematics", "kinetics", "vibration",
    "machine design", "mechanism", "gear", "bearing", "shaft",
    "fatigue", "fracture", "failure analysis", "finite element analysis", "FEA",
    "CAD", "manufacturing", "machining", "casting", "welding",
    "material properties", "yield strength", "tensile strength", "elastic modulus",
    "thermal expansion", "coefficient of friction"]),
  ("civil engineering", [
    "structure", "structural engineering", "structural analysis", "beam",
    "column", "truss", "frame", "load", "dead load", "live load",
    "wind load", "seismic load", "foundation", "footing", "pile",
    "concrete", "reinforced concrete", "prestressed concrete", "steel",
    "structural steel", "timber", "masonry", "building code",
    "moment", "shear force", "bending moment", "deflection", "buckling",
    "geotechnical engineering", "soil mechanics", "soil", "bearing capacity",
    "settlement", "slope stability", "retaining wall", "highway engineering",
    "transportation engineering", "hydraulic engineering", "water resources"]),
  ("chemical engineering", [
    "chemical reactor", "reactor design", "reaction engineering", "process",
    "unit operation", "separation process", "distillation", "absorption",
    "extraction", "crystallization", "filtration", "mass transfer",
    "heat transfer", "heat exchanger", "fluid mechanics", "fluid flow",
    "pressure drop", "pump", "compressor", "turbine", "valve",
    "process control", "feedback control", "PID controller", "instrumentation",
    "material balance", "energy balance", "thermodynamics", "phase equilibrium",
    "chemical kinetics", "catalyst", "process optimization", "process design",
    "process safety", "scale-up", "pilot plant"])]

/-- `FIELD_KEYWORDS[field]` — exact-key object lookup (no normalization),
`none` when the key is absent (JS `undefined`). -/
def fieldKeywordsAt (field : String) : Option (List String) :=
  (FIELD_KEYWORDS.find? (fun p => p.1 = field)).map (fun p => p.2)

/-- `getAllFields()` — the object's key list. -/
def getAllFields : List String :=
  FIELD_KEYWORDS.map (fun p => p.1)

/-- `getFieldKeywords(field)` — lowercases and trims, then looks up,
defaulting to the empty list. -/
def getFieldKeywords (field : String) : List String :=
  (fieldKeywordsAt (jsTrim (jsToLower field))).getD []

/-- `hasField(field)` — lowercases and trims, then tests key membership. -/
def hasField (field : String) : Bool :=
  (jsTrim (jsToLower field)) ∈ getAllFields

/-! ### Index building and construction (`KeywordDetector` constructor) -/

/-- One `keywordIndex` insertion: `if (!has(k)) set(k, []); get(k).push(m)`.
The JS `Map` keeps keys in insertion order and appends to the bucket. -/
def indexInsert (idx : List (String × List KeywordMatch)) (k : String)
    (m : KeywordMatch) : List (String × List KeywordMatch) :=
  if idx.any (fun p => p.1 = k) then
    idx.map (fun p => if p.1 = k then (p.1, p.2 ++ [m]) else p)
  else
    idx ++ [(k, [m])]

/-- `_buildKeywordIndex`: for each target field, look the field up in
`FIELD_KEYWORDS` (skipping absent fields), and insert each keyword under its
normalized form together with `{field, keyword, wordCount}`. -/
def buildKeywordIndex (targetFields : List String) (caseSensitive : Bool) :
    List (String × List KeywordMatch) :=
  targetFields.foldl
    (fun idx field =>
      match fieldKeywordsAt field with
      | some keywords =>
          keywords.foldl
            (fun idx keyword =>
              indexInsert idx (if caseSensitive then keyword else jsToLower keyword)
                { field := field, keyword := keyword,
                  wordCount := jsWordCount keyword })
            idx
      | none => idx)
    []

/-- The JS constructor: `config.targetFields || getAllFields()`,
`config.minConfidence || 0.7` (so an explicit `0` falls back to `0.7`,
being falsy), `config.caseSensitive || false`,
`config.multiWordMatching !== false`. -/
def mkDetector (config : DetectorConfig) : KeywordDetector :=
  let targetFields := config.targetFields.getD getAllFields
  let caseSensitive := config.caseSensitive.getD false
  { targetFields := targetFields
    minConfidence :=
      match config.minConfidence with
      | some v => if v = 0 then 7/10 else v
      | none => 7/10
    caseSensitive := caseSensitive
    multiWordMatching :=
      match config.multiWordMatching with
      | some b => b
      | none => true
    keywordIndex := buildKeywordIndex targetFields caseSensitive }

/-- The TypeScript constructor (`src/unnamed/part_005`): identical except
that it resolves the optional fields with `??`, so an explicit
`minConfidence: 0` is kept. The remaining methods of the TypeScript class
are verbatim identical to the JavaScript ones and are embedded by the same
functions below. -/
def mkDetectorTS (config : DetectorConfig) : KeywordDetector :=
  let targetFields := config.targetFields.getD getAllFields
  let caseSensitive := config.caseSensitive.getD false
  { targetFields := targetFields
    minConfidence := config.minConfidence.getD (7/10)
    caseSensitive := caseSensitive
    multiWordMatching := config.multiWordMatching.getD true
    keywordIndex := buildKeywordIndex targetFields caseSensitive }

/-! ### Helpers of `detectKeywords` -/

/-- `_calculateBoundingBox(words)`. -/
def calculateBoundingBox : List Word → Position
  | [] => { x := 0, y := 0, width := 0, height := 0 }
  | [w] => { x := w.x, y := w.y, width := w.width, height := w.height }
  | w :: w' :: ws =>
      let rest := w' :: ws
      let minX := rest.foldl (fun acc u => min acc u.x) w.x
      let minY := rest.foldl (fun acc u => min acc u.y) w.y
      let maxX := rest.foldl (fun acc u => max acc (u.x + u.width)) (w.x + w.width)
      let maxY := rest.foldl (fun acc u => max acc (u.y + u.height)) (w.y + w.height)
      { x := minX, y := minY, width := maxX - minX, height := maxY - minY }

/-- `word.confidence || 0.9`: an absent (`undefined`) and an explicit `0`
confidence are both falsy and yield `0.9`. -/
def confContribution (w : Word) : ℚ :=
  match w.confidence with
  | some c => if c = 0 then 9/10 else c
  | none => 9/10

/-- `_calculateConfidence(words)`: mean of the per-word contributions,
`0` on the empty list. -/
def calculateConfidence (ws : List Word) : ℚ :=
  if ws = [] then 0
  else (ws.map confContribution).sum / (ws.length : ℚ)

/-- `wordIndices: Array.from({length: L}, (_, j) => i + j)`. -/
def mkIndices (i L : ℕ) : List ℕ :=
  (List.range L).map (fun j => i + j)

/-- `words.slice(i, i + L)`. -/
def phraseSlice (ws : List Word) (i L : ℕ) : List Word :=
  (ws.drop i).take L

/-- The normalized phrase text for the window starting at `i` of length `L`:
texts joined with single spaces, lowercased unless case-sensitive. -/
def normPhrase (d : KeywordDetector) (ws : List Word) (i L : ℕ) : String :=
  let t := String.intercalate " " ((phraseSlice ws i L).map (fun w => w.text))
  if d.caseSensitive then t else jsToLower t

/-- `keywordIndex.get(k)` with a missing key collapsed to the empty bucket
(the JS guard `matches && matches.length > 0` treats both alike). -/
def lookupIdx (idx : List (String × List KeywordMatch)) (k : String) :
    List KeywordMatch :=
  match idx.find? (fun p => p.1 = k) with
  | some p => p.2
  | none => []

/-- The index bucket for the window at `i` of length `L`. -/
def entriesAt (d : KeywordDetector) (ws : List Word) (i L : ℕ) :
    List KeywordMatch :=
  lookupIdx d.keywordIndex (normPhrase d ws i L)

/-- The record pushed for one index entry of a matched window. -/
def mkRecord (d : KeywordDetector) (ws : List Word) (i L : ℕ)
    (e : KeywordMatch) : DetectedKeyword :=
  { text := e.keyword
    normalizedText := normPhrase d ws i L
    field := e.field
    confidence := calculateConfidence (phraseSlice ws i L)
    position := calculateBoundingBox (phraseSlice ws i L)
    wordIndices := mkIndices i L }

/-- The matcher's mutable locals: `detectedKeywords` and
`processedIndices`. -/
structure DetState where
  detected : List DetectedKeyword
  processed : Finset ℕ
deriving DecidableEq

/-- One iteration of the inner loop of the multi-word matcher at window
`(L, i)`: skip if any index of the window is consumed, skip if the phrase
has no bucket, otherwise push one record per bucket entry and consume the
window. -/
def stepAt (d : KeywordDetector) (ws : List Word) (L i : ℕ)
    (s : DetState) : DetState :=
  if (mkIndices i L).any (fun j => j ∈ s.processed) then s
  else if entriesAt d ws i L = [] then s
  else
    { detected := s.detected ++ (entriesAt d ws i L).map (mkRecord d ws i L)
      processed := s.processed ∪ (mkIndices i L).toFinset }

/-- The start positions visited for window length `L`
(`for (i = 0; i <= words.length - L; i++)`; none when fewer than `L`
words exist, as the JS subtraction is then negative). -/
def positions (L n : ℕ) : List ℕ :=
  if L ≤ n then List.range (n - L + 1) else []

/-- The `(L, i)` windows visited for one phrase length. -/
def lengthPairs (L n : ℕ) : List (ℕ × ℕ) :=
  (positions L n).map (fun i => (L, i))

/-- All windows in visit order: lengths 4 down to 1, each left to right. -/
def scanPairs (n : ℕ) : List (ℕ × ℕ) :=
  lengthPairs 4 n ++ lengthPairs 3 n ++ lengthPairs 2 n ++ lengthPairs 1 n

/-- Folding the matcher step over a list of `(L, i)` windows. -/
def runPairs (d : KeywordDetector) (ws : List Word) (s : DetState)
    (ps : List (ℕ × ℕ)) : DetState :=
  ps.foldl (fun s p => stepAt d ws p.1 p.2 s) s

/-- The multi-word branch of `detectKeywords` (before filter/sort). -/
def multiPass (d : KeywordDetector) (ws : List Word) : DetState :=
  runPairs d ws { detected := [], processed := ∅ } (scanPairs ws.length)

/-- One iteration of the single-word branch at `(index, word)`. -/
def singleStep (d : KeywordDetector) (s : DetState) (p : ℕ × Word) :
    DetState :=
  if p.1 ∈ s.processed then s
  else
    let nw := if d.caseSensitive then p.2.text else jsToLower p.2.text
    if lookupIdx d.keywordIndex nw = [] then s
    else
      { detected := s.detected ++ (lookupIdx d.keywordIndex nw).map
          (fun e =>
            { text := e.keyword
              normalizedText := nw
              field := e.field
              confidence := confContribution p.2
              position := { x := p.2.x, y := p.2.y,
                            width := p.2.width, height := p.2.height }
              wordIndices := [p.1] })
        processed := insert p.1 s.processed }

/-- The single-word branch of `detectKeywords` (before filter/sort). -/
def singlePass (d : KeywordDetector) (ws : List Word) : DetState :=
  ws.enum.foldl (singleStep d) { detected := [], processed := ∅ }

/-- The accumulated `detectedKeywords` list before threshold filtering
and sorting. -/
def rawDetect (d : KeywordDetector) (ws : List Word) : List DetectedKeyword :=
  if d.multiWordMatching then (multiPass d ws).detected
  else (singlePass d ws).detected

/-- The sort comparator: ascending `position.y`, then ascending
`position.x` (as a boolean total preorder for the stable sort). -/
def posLE (a b : DetectedKeyword) : Bool :=
  if a.position.y ≠ b.position.y then a.position.y < b.position.y
  else a.position.x ≤ b.position.x

/-- `detectKeywords(words)` on an actual array: detect, filter by
`confidence >= minConfidence`, stable-sort by position. -/
def detectKeywords (d : KeywordDetector) (ws : List Word) :
    List DetectedKeyword :=
  ((rawDetect d ws).filter
      (fun kw => d.minConfidence ≤ kw.confidence)).mergeSort posLE

/-- `detectKeywords` including its dynamic argument check: `none` models a
`null`/`undefined`/non-array argument and throws. -/
def detectKeywordsChecked (d : KeywordDetector) :
    Option (List Word) → Except String (List DetectedKeyword)
  | none => .error "words must be an array of word objects"
  | some ws => .ok (detectKeywords d ws)

/-- A method call on the instance: the body reads `this` but never assigns
to it, so the instance after the call is the unchanged receiver. -/
def detectKeywordsCall (d : KeywordDetector) (ws : List Word) :
    List DetectedKeyword × KeywordDetector :=
  (detectKeywords d ws, d)

/-! ### `getStatistics`, `getConfig`, and the worker's field validation -/

/-- `fieldCounts[kw.field] = (fieldCounts[kw.field] || 0) + 1` on an
insertion-ordered object. -/
def bumpField (fc : List (String × ℕ)) (f : String) : List (String × ℕ) :=
  if fc.any (fun p => p.1 = f) then
    fc.map (fun p => if p.1 = f then (p.1, p.2 + 1) else p)
  else
    fc ++ [(f, 1)]

/-- `getStatistics(keywords)`. -/
def getStatistics (keywords : List DetectedKeyword) : KeywordStatistics :=
  { total := keywords.length
    byField := keywords.foldl (fun fc kw => bumpField fc kw.field) []
    averageConfidence :=
      if keywords.length > 0 then
        (keywords.map (fun kw => kw.confidence)).sum / (keywords.length : ℚ)
      else 0
    uniqueTerms := ((keywords.map (fun kw => kw.normalizedText)).dedup).length }

/-- `getConfig()`. -/
def getConfig (d : KeywordDetector) : ConfigView :=
  { targetFields := d.targetFields
    minConfidence := d.minConfidence
    caseSensitive := d.caseSensitive
    multiWordMatching := d.multiWordMatching
    indexedKeywords := d.keywordIndex.length }

/-- `handleDetect`'s target-field validation:
`body.targetFields.filter(field => !hasField(field))`; the request is
rejected exactly when this list is nonempty. -/
def invalidFieldsOf (targetFields : List String) : List String :=
  targetFields.filter (fun f => !hasField f)

/-! ### Predicates used by the verification -/

/-- No registered phrase of length 2–4 other than the window `(i, 2)`
itself overlaps the two-token window starting at `i` (a decidable check
over exactly the windows the matcher visits). -/
def competingFree (d : KeywordDetector) (ws : List Word) (i : ℕ) : Bool :=
  ([2, 3, 4] : List ℕ).all fun L =>
    (positions L ws.length).all fun j =>
      decide (L = 2 ∧ j = i) || !(decide (j < i + 2 ∧ i < j + L)) ||
        decide (entriesAt d ws j L = [])

/-- The loop invariant of the multi-word matcher: every detected record's
indices are consumed; every record arises from some visited window's
bucket; the records carrying a given window's index list are precisely
that window's bucket fan-out (or absent); and records of distinct windows
occupy disjoint indices. -/
structure DetInv (d : KeywordDetector) (ws : List Word) (s : DetState) :
    Prop where
  cover : ∀ m ∈ s.detected, ∀ j ∈ m.wordIndices, j ∈ s.processed
  prov : ∀ m ∈ s.detected, ∃ i L, 1 ≤ L ∧ L ≤ 4 ∧ i + L ≤ ws.length ∧
    entriesAt d ws i L ≠ [] ∧
    m ∈ (entriesAt d ws i L).map (mkRecord d ws i L)
  batch : ∀ i L, 1 ≤ L →
    s.detected.filter (fun m => m.wordIndices = mkIndices i L) = [] ∨
    s.detected.filter (fun m => m.wordIndices = mkIndices i L) =
      (entriesAt d ws i L).map (mkRecord d ws i L)
  disj : ∀ m ∈ s.detected, ∀ m' ∈ s.detected,
    m.wordIndices = m'.wordIndices ∨ ∀ j ∈ m.wordIndices, j ∉ m'.wordIndices

/-! ### Concrete fixtures used by witnesses and counterexamples -/

/-- A request configuration targeting the single field `"relativity"`. -/
def relConfig : DetectorConfig :=
  { targetFields := some ["relativity"], minConfidence := none,
    caseSensitive := none, multiWordMatching := none }

/-- The detector the JS constructor builds from `relConfig`. -/
def relDetector : KeywordDetector := mkDetector relConfig

/-- A test word with a given text and horizontal offset (no explicit
confidence). -/
def testWord (t : String) (px : ℚ) : Word :=
  { text := t, x := px, y := 0, width := 10, height := 5, confidence := none }

/-- Token array `["metric", "tensor"]`. -/
def wordsMT : List Word := [testWord "metric" 0, testWord "tensor" 10]

/-- Token array `["schwarzschild", "metric", "tensor"]`. -/
def wordsSMT : List Word :=
  [testWord "schwarzschild" 0, testWord "metric" 10, testWord "tensor" 20]

/-- A configuration supplying an explicit `minConfidence` of `0`. -/
def zeroMinConfig : DetectorConfig :=
  { targetFields := some ["relativity"], minConfidence := some 0,
    caseSensitive := none, multiWordMatching := none }

/-- A configuration supplying an explicit `minConfidence` of `1/2`. -/
def halfMinConfig : DetectorConfig :=
  { targetFields := some ["relativity"], minConfidence := some (1/2),
    caseSensitive := some false, multiWordMatching := some true }

/-- A word carrying an explicit `confidence` of `0`. -/
def zeroConfWord : Word :=
  { text := "tensor", x := 0, y := 0, width := 10, height := 5,
    confidence := some 0 }

/-- The record the detector returns for `"schwarzschild metric"` on
`wordsSMT`. -/
def smtPhraseRecord : DetectedKeyword :=
  { text := "schwarzschild metric", normalizedText := "schwarzschild metric",
    field := "relativity", confidence := 9/10,
    position := { x := 0, y := 0, width := 20, height := 5 },
    wordIndices := [0, 1] }

/-- The record the detector returns for the stray `"tensor"` on
`wordsSMT`. -/
def smtTensorRecord : DetectedKeyword :=
  { text := "tensor", normalizedText := "tensor",
    field := "relativity", confidence := 9/10,
    position := { x := 20, y := 0, width := 10, height := 5 },
    wordIndices := [2] }

/-- The record the detector returns for `"metric tensor"` on `wordsMT`. -/
def mtRecord : DetectedKeyword :=
  { text := "metric tensor", normalizedText := "metric tensor",
    field := "relativity", confidence := 9/10,
    position := { x := 0, y := 0, width := 20, height := 5 },
    wordIndices := [0, 1] }

/-- Two words carrying explicit confidences `0.9` and `0.7`. -/
def confPairWords : List Word :=
  [{ text := "metric", x := 0, y := 0, width := 10, height := 5,
     confidence := some (9/10) },
   { text := "tensor", x := 10, y := 0, width := 10, height := 5,
     confidence := some (7/10) }]

/-! ### Lemmas: windows -/

theorem mkIndices_length (i L : ℕ) : (mkIndices i L).length = L := by
  simp [mkIndices]

theorem mem_mkIndices {j i L : ℕ} : j ∈ mkIndices i L ↔ i ≤ j ∧ j < i + L := by
  simp only [mkIndices, List.mem_map, List.mem_range]
  constructor
  · rintro ⟨a, ha, rfl⟩; omega
  · intro h; exact ⟨j - i, by omega, by omega⟩

theorem mkIndices_ne_nil {i L : ℕ} (h : 1 ≤ L) : mkIndices i L ≠ [] := by
  intro hc
  have hl := mkIndices_length i L
  rw [hc] at hl
  simp at hl
  omega

theorem mkIndices_inj {i L i' L' : ℕ} (h1 : 1 ≤ L)
    (h : mkIndices i L = mkIndices i' L') : i = i' ∧ L = L' := by
  have hlen : L = L' := by
    have hc := congrArg List.length h
    rwa [mkIndices_length, mkIndices_length] at hc
  have hi : i ∈ mkIndices i' L' := by
    rw [← h]; exact mem_mkIndices.mpr ⟨le_refl i, by omega⟩
  have hi' : i' ∈ mkIndices i L := by
    rw [h]; exact mem_mkIndices.mpr ⟨le_refl i', by omega⟩
  rw [mem_mkIndices] at hi hi'
  exact ⟨by omega, hlen⟩

theorem mkRecord_wordIndices (d : KeywordDetector) (ws : List Word)
    (i L : ℕ) (e : KeywordMatch) :
    (mkRecord d ws i L e).wordIndices = mkIndices i L := rfl

theorem mem_positions {j L n : ℕ} (h : j ∈ positions L n) : j + L ≤ n := by
  by_cases hL : L ≤ n
  · simp only [positions, if_pos hL, List.mem_range] at h
    omega
  · simp [positions, hL] at h

/-! ### Lemmas: one matcher step -/

theorem stepAt_cases (d : KeywordDetector) (ws : List Word) (L i : ℕ)
    (s : DetState) :
    stepAt d ws L i s = s ∨
    ((∀ j ∈ mkIndices i L, j ∉ s.processed) ∧ entriesAt d ws i L ≠ [] ∧
      stepAt d ws L i s =
        { detected := s.detected ++
            (entriesAt d ws i L).map (mkRecord d ws i L),
          processed := s.processed ∪ (mkIndices i L).toFinset }) := by
  by_cases h1 : (mkIndices i L).any (fun j => decide (j ∈ s.processed)) = true
  · left; simp only [stepAt, h1, if_true]
  · by_cases h2 : entriesAt d ws i L = []
    · left; simp [stepAt, h1, h2]
    · right
      refine ⟨?_, h2, ?_⟩
      · intro j hj hmem
        apply h1
        simp only [List.any_eq_true, decide_eq_true_eq]
        exact ⟨j, hj, hmem⟩
      · simp [stepAt, h1, h2]

theorem stepAt_detected (d : KeywordDetector) (ws : List Word) (L i : ℕ)
    (s : DetState) :
    ∃ t, (stepAt d ws L i s).detected = s.detected ++ t := by
  rcases stepAt_cases d ws L i s with h | ⟨_, _, h⟩
  · exact ⟨[], by simp [h]⟩
  · exact ⟨_, by rw [h]⟩

/-! ### Lemmas: folding over windows -/

theorem runPairs_nil (d : KeywordDetector) (ws : List Word) (s : DetState) :
    runPairs d ws s [] = s := rfl

theorem runPairs_cons (d : KeywordDetector) (ws : List Word) (s : DetState)
    (p : ℕ × ℕ) (ps : List (ℕ × ℕ)) :
    runPairs d ws s (p :: ps) = runPairs d ws (stepAt d ws p.1 p.2 s) ps := rfl

theorem runPairs_append (d : KeywordDetector) (ws : List Word) (s : DetState)
    (ps qs : List (ℕ × ℕ)) :
    runPairs d ws s (ps ++ qs) = runPairs d ws (runPairs d ws s ps) qs :=
  List.foldl_append _ _ _ _

theorem runPairs_detected (d : KeywordDetector) (ws : List Word)
    (ps : List (ℕ × ℕ)) :
    ∀ s, ∃ t, (runPairs d ws s ps).detected = s.detected ++ t := by
  induction ps with
  | nil => intro s; exact ⟨[], by simp [runPairs_nil]⟩
  | cons p ps ih =>
    intro s
    obtain ⟨t₁, h₁⟩ := stepAt_detected d ws p.1 p.2 s
    obtain ⟨t₂, h₂⟩ := ih (stepAt d ws p.1 p.2 s)
    refine ⟨t₁ ++ t₂, ?_⟩
    rw [runPairs_cons, h₂, h₁, List.append_assoc]

theorem mem_runPairs_detected {d : KeywordDetector} {ws : List Word}
    {s : DetState} {m : DetectedKeyword} (ps : List (ℕ × ℕ))
    (hm : m ∈ s.detected) : m ∈ (runPairs d ws s ps).detected := by
  obtain ⟨t, ht⟩ := runPairs_detected d ws ps s
  rw [ht]
  exact List.mem_append_left t hm

/-! ### Lemmas: the matcher invariant -/

theorem DetInv_init (d : KeywordDetector) (ws : List Word) :
    DetInv d ws { detected := [], processed := ∅ } := by
  constructor <;> simp

theorem DetInv_stepAt {d : KeywordDetector} {ws : List Word} {s : DetState}
    (h : DetInv d ws s) {L i : ℕ} (hL : 1 ≤ L) (hL4 : L ≤ 4)
    (hiL : i + L ≤ ws.length) : DetInv d ws (stepAt d ws L i s) := by
  rcases stepAt_cases d ws L i s with heq | ⟨hfree, hne, heq⟩
  · rwa [heq]
  · rw [heq]
    constructor
    · intro m hm j hj
      rcases List.mem_append.mp hm with hm | hm
      · exact Finset.mem_union_left _ (h.cover m hm j hj)
      · obtain ⟨e, _, rfl⟩ := List.mem_map.mp hm
        rw [mkRecord_wordIndices] at hj
        exact Finset.mem_union_right _ (List.mem_toFinset.mpr hj)
    · intro m hm
      rcases List.mem_append.mp hm with hm | hm
      · exact h.prov m hm
      · exact ⟨i, L, hL, hL4, hiL, hne, hm⟩
    · intro i' L' hL'
      rw [List.filter_append]
      by_cases hw : mkIndices i' L' = mkIndices i L
      · obtain ⟨rfl, rfl⟩ := mkIndices_inj hL' hw
        have hold : s.detected.filter
            (fun m => m.wordIndices = mkIndices i' L') = [] := by
          rw [List.filter_eq_nil_iff]
          intro m hm hpred
          rw [decide_eq_true_eq] at hpred
          have hiw : i' ∈ m.wordIndices := by
            rw [hpred]
            exact mem_mkIndices.mpr ⟨le_refl i', by omega⟩
          exact hfree i' (mem_mkIndices.mpr ⟨le_refl i', by omega⟩)
            (h.cover m hm i' hiw)
        have hnew : ((entriesAt d ws i' L').map
              (mkRecord d ws i' L')).filter
            (fun m => m.wordIndices = mkIndices i' L') =
            (entriesAt d ws i' L').map (mkRecord d ws i' L') := by
          rw [List.filter_eq_self]
          intro b hb
          obtain ⟨e, _, rfl⟩ := List.mem_map.mp hb
          simp [mkRecord_wordIndices]
        right
        rw [hold, hnew, List.nil_append]
      · have hnew : ((entriesAt d ws i L).map
              (mkRecord d ws i L)).filter
            (fun m => m.wordIndices = mkIndices i' L') = [] := by
          rw [List.filter_eq_nil_iff]
          intro b hb hpred
          obtain ⟨e, _, rfl⟩ := List.mem_map.mp hb
          rw [decide_eq_true_eq, mkRecord_wordIndices] at hpred
          exact hw hpred.symm
        rw [hnew, List.append_nil]
        exact h.batch i' L' hL'
    · intro m hm m' hm'
      rcases List.mem_append.mp hm with hm | hm <;>
        rcases List.mem_append.mp hm' with hm' | hm'
      · exact h.disj m hm m' hm'
      · right
        intro j hj hj'
        obtain ⟨e, _, rfl⟩ := List.mem_map.mp hm'
        rw [mkRecord_wordIndices] at hj'
        exact hfree j hj' (h.cover m hm j hj)
      · right
        intro j hj hj'
        obtain ⟨e, _, rfl⟩ := List.mem_map.mp hm
        rw [mkRecord_wordIndices] at hj
        exact hfree j hj (h.cover m' hm' j hj')
      · left
        obtain ⟨e, _, rfl⟩ := List.mem_map.mp hm
        obtain ⟨e', _, rfl⟩ := List.mem_map.mp hm'
        rw [mkRecord_wordIndices, mkRecord_wordIndices]

theorem DetInv_runPairs {d : KeywordDetector} {ws : List Word}
    (ps : List (ℕ × ℕ))
    (hps : ∀ p ∈ ps, 1 ≤ p.1 ∧ p.1 ≤ 4 ∧ p.2 + p.1 ≤ ws.length) :
    ∀ s, DetInv d ws s → DetInv d ws (runPairs d ws s ps) := by
  induction ps with
  | nil => intro s h; rwa [runPairs_nil]
  | cons p ps ih =>
    intro s h
    rw [runPairs_cons]
    obtain ⟨h1, h2, h3⟩ := hps p (List.mem_cons_self p ps)
    exact ih (fun q hq => hps q (List.mem_cons_of_mem p hq)) _
      (DetInv_stepAt h h1 h2 h3)

theorem scanPairs_bounds {n : ℕ} :
    ∀ p ∈ scanPairs n, 1 ≤ p.1 ∧ p.1 ≤ 4 ∧ p.2 + p.1 ≤ n := by
  intro p hp
  simp only [scanPairs, lengthPairs, List.mem_append, List.mem_map] at hp
  rcases hp with ((⟨j, hj, rfl⟩ | ⟨j, hj, rfl⟩) | ⟨j, hj, rfl⟩) | ⟨j, hj, rfl⟩ <;>
    exact ⟨by norm_num, by norm_num, by simpa using mem_positions hj⟩

theorem DetInv_multiPass (d : KeywordDetector) (ws : List Word) :
    DetInv d ws (multiPass d ws) :=
  DetInv_runPairs _ scanPairs_bounds _ (DetInv_init d ws)

/-! ### Lemmas: from the raw pass to the returned list -/

theorem mem_detectKeywords_iff {d : KeywordDetector} {ws : List Word}
    {m : DetectedKeyword} :
    m ∈ detectKeywords d ws ↔
      m ∈ rawDetect d ws ∧ d.minConfidence ≤ m.confidence := by
  unfold detectKeywords
  rw [(List.mergeSort_perm _ posLE).mem_iff, List.mem_filter,
    decide_eq_true_eq]

theorem singleStep_singleton {d : KeywordDetector} {s : DetState}
    {p : ℕ × Word} (h : ∀ m ∈ s.detected, ∃ k, m.wordIndices = [k]) :
    ∀ m ∈ (singleStep d s p).detected, ∃ k, m.wordIndices = [k] := by
  by_cases h1 : p.1 ∈ s.processed
  · simpa [singleStep, h1] using h
  · by_cases h2 : lookupIdx d.keywordIndex
        (if d.caseSensitive then p.2.text else jsToLower p.2.text) = []
    · simpa [singleStep, h1, h2] using h
    · intro m hm
      simp only [singleStep, h1, h2, if_false, if_neg h1] at hm
      rcases List.mem_append.mp hm with hm | hm
      · exact h m hm
      · obtain ⟨e, _, rfl⟩ := List.mem_map.mp hm
        exact ⟨p.1, rfl⟩

theorem singleFold_singleton (d : KeywordDetector) (ps : List (ℕ × Word)) :
    ∀ s, (∀ m ∈ s.detected, ∃ k, m.wordIndices = [k]) →
      ∀ m ∈ (ps.foldl (singleStep d) s).detected, ∃ k, m.wordIndices = [k] := by
  induction ps with
  | nil => intro s h; simpa using h
  | cons p ps ih =>
    intro s h
    exact ih _ (singleStep_singleton h)

theorem singlePass_singleton (d : KeywordDetector) (ws : List Word) :
    ∀ m ∈ (singlePass d ws).detected, ∃ k, m.wordIndices = [k] :=
  singleFold_singleton d ws.enum _ (by simp)

theorem rawDetect_disjoint {d : KeywordDetector} {ws : List Word} :
    ∀ m ∈ rawDetect d ws, ∀ m' ∈ rawDetect d ws,
      m.wordIndices = m'.wordIndices ∨
      ∀ j ∈ m.wordIndices, j ∉ m'.wordIndices := by
  intro m hm m' hm'
  unfold rawDetect at hm hm'
  by_cases hmode : d.multiWordMatching = true
  · rw [if_pos hmode] at hm hm'
    exact (DetInv_multiPass d ws).disj m hm m' hm'
  · rw [if_neg hmode] at hm hm'
    obtain ⟨k, hk⟩ := singlePass_singleton d ws m hm
    obtain ⟨k', hk'⟩ := singlePass_singleton d ws m' hm'
    by_cases hkk : k = k'
    · left; rw [hk, hk', hkk]
    · right
      intro j hj hj'
      rw [hk] at hj
      rw [hk'] at hj'
      simp only [List.mem_singleton] at hj hj'
      exact hkk (hj ▸ hj' ▸ rfl)

theorem detectKeywords_disjoint {d : KeywordDetector} {ws : List Word} :
    ∀ m ∈ detectKeywords d ws, ∀ m' ∈ detectKeywords d ws,
      m.wordIndices = m'.wordIndices ∨
      ∀ j ∈ m.wordIndices, j ∉ m'.wordIndices := by
  intro m hm m' hm'
  exact rawDetect_disjoint m (mem_detectKeywords_iff.mp hm).1 m'
    (mem_detectKeywords_iff.mp hm').1

theorem rawDetect_batch {d : KeywordDetector} {ws : List Word}
    (hmode : d.multiWordMatching = true) (i L : ℕ) (hL : 1 ≤ L) :
    (rawDetect d ws).filter (fun m => m.wordIndices = mkIndices i L) = [] ∨
    (rawDetect d ws).filter (fun m => m.wordIndices = mkIndices i L) =
      (entriesAt d ws i L).map (mkRecord d ws i L) := by
  unfold rawDetect
  rw [if_pos hmode]
  exact (DetInv_multiPass d ws).batch i L hL

theorem result_prov {d : KeywordDetector} {ws : List Word}
    {m : DetectedKeyword} (hmode : d.multiWordMatching = true)
    (hm : m ∈ detectKeywords d ws) :
    ∃ i L, 1 ≤ L ∧ L ≤ 4 ∧ i + L ≤ ws.length ∧ entriesAt d ws i L ≠ [] ∧
      m ∈ (entriesAt d ws i L).map (mkRecord d ws i L) := by
  have hr := (mem_detectKeywords_iff.mp hm).1
  unfold rawDetect at hr
  rw [if_pos hmode] at hr
  exact (DetInv_multiPass d ws).prov m hr

theorem result_filter_span {d : KeywordDetector} {ws : List Word}
    {m : DetectedKeyword} (hmode : d.multiWordMatching = true)
    (hm : m ∈ detectKeywords d ws) :
    ∃ i L, 1 ≤ L ∧ m.wordIndices = mkIndices i L ∧
      m.normalizedText = normPhrase d ws i L ∧
      lookupIdx d.keywordIndex m.normalizedText = entriesAt d ws i L ∧
      ((detectKeywords d ws).filter
          (fun r => r.wordIndices = m.wordIndices)).Perm
        ((entriesAt d ws i L).map (mkRecord d ws i L)) := by
  obtain ⟨i, L, hL, _, _, hne, hmem⟩ := result_prov hmode hm
  have hmraw := (mem_detectKeywords_iff.mp hm).1
  have hmconf := (mem_detectKeywords_iff.mp hm).2
  obtain ⟨e, he, hrec⟩ := List.mem_map.mp hmem
  have hwi : m.wordIndices = mkIndices i L := by rw [← hrec]; rfl
  have hnt : m.normalizedText = normPhrase d ws i L := by rw [← hrec]; rfl
  refine ⟨i, L, hL, hwi, hnt, by rw [hnt]; rfl, ?_⟩
  have step1 : ((detectKeywords d ws).filter
      (fun r => r.wordIndices = m.wordIndices)).Perm
      (((rawDetect d ws).filter
        (fun kw => d.minConfidence ≤ kw.confidence)).filter
        (fun r => r.wordIndices = m.wordIndices)) :=
    (List.mergeSort_perm _ posLE).filter _
  have step2 : ((rawDetect d ws).filter
        (fun kw => d.minConfidence ≤ kw.confidence)).filter
        (fun r => r.wordIndices = m.wordIndices) =
      ((rawDetect d ws).filter
        (fun r => r.wordIndices = m.wordIndices)).filter
        (fun kw => d.minConfidence ≤ kw.confidence) := by
    rw [List.filter_filter, List.filter_filter]
    exact List.filter_congr (fun a _ => Bool.and_comm _ _)
  have step3 : (rawDetect d ws).filter
      (fun r => r.wordIndices = m.wordIndices) =
      (entriesAt d ws i L).map (mkRecord d ws i L) := by
    rw [hwi]
    rcases rawDetect_batch hmode i L hL with h0 | h1
    · exfalso
      have : m ∈ (rawDetect d ws).filter
          (fun r => r.wordIndices = mkIndices i L) :=
        List.mem_filter.mpr ⟨hmraw, by simp [hwi]⟩
      rw [h0] at this
      simp at this
    · exact h1
  have step4 : ((entriesAt d ws i L).map (mkRecord d ws i L)).filter
      (fun kw => d.minConfidence ≤ kw.confidence) =
      (entriesAt d ws i L).map (mkRecord d ws i L) := by
    rw [List.filter_eq_self]
    intro b hb
    obtain ⟨e', _, rfl⟩ := List.mem_map.mp hb
    have : (mkRecord d ws i L e').confidence = m.confidence := by
      rw [← hrec]; rfl
    rw [decide_eq_true_eq, this]
    exact hmconf
  rw [step2, step3, step4] at step1
  exact step1

/-! ### Lemmas: longest-match analysis -/

theorem runPairs_avoid {d : KeywordDetector} {ws : List Word} {i : ℕ}
    (ps : List (ℕ × ℕ))
    (hps : ∀ p ∈ ps, p.2 < i + 2 → i < p.2 + p.1 →
      entriesAt d ws p.2 p.1 = []) :
    ∀ s, (∀ j ∈ mkIndices i 2, j ∉ s.processed) →
      ∀ j ∈ mkIndices i 2, j ∉ (runPairs d ws s ps).processed := by
  induction ps with
  | nil => intro s h; simpa [runPairs_nil] using h
  | cons p ps ih =>
    intro s h
    rw [runPairs_cons]
    apply ih (fun q hq => hps q (List.mem_cons_of_mem p hq))
    intro j hj
    rcases stepAt_cases d ws p.1 p.2 s with heq | ⟨_, hne, heq⟩
    · rw [heq]; exact h j hj
    · rw [heq]
      simp only [Finset.mem_union, List.mem_toFinset]
      rintro (hmem | hmem)
      · exact h j hj hmem
      · rw [mem_mkIndices] at hmem
        rw [mem_mkIndices] at hj
        exact hne (hps p (List.mem_cons_self p ps) (by omega) (by omega))

theorem range_split (i k : ℕ) :
    List.range (i + k) = List.range i ++ (List.range k).map (fun j => i + j) := by
  induction k with
  | zero => simp
  | succ k ih =>
    rw [show i + (k + 1) = (i + k) + 1 by omega, List.range_succ, ih,
      List.range_succ, List.map_append, List.append_assoc]
    simp

theorem stepAt_fires {d : KeywordDetector} {ws : List Word} {L i : ℕ}
    {s : DetState} (hfree : ∀ j ∈ mkIndices i L, j ∉ s.processed)
    (hne : entriesAt d ws i L ≠ []) :
    stepAt d ws L i s =
      { detected := s.detected ++
          (entriesAt d ws i L).map (mkRecord d ws i L),
        processed := s.processed ∪ (mkIndices i L).toFinset } := by
  have hguard : ¬((mkIndices i L).any
      (fun j => decide (j ∈ s.processed)) = true) := by
    simp only [List.any_eq_true, decide_eq_true_eq, not_exists]
    intro j
    rintro ⟨hj, hmem⟩
    exact hfree j hj hmem
  simp only [stepAt]
  rw [if_neg hguard, if_neg hne]

theorem scanPairs_split {n i : ℕ} (h : i + 2 ≤ n) :
    ∃ tail, scanPairs n =
      (lengthPairs 4 n ++ lengthPairs 3 n ++
        (List.range i).map (fun j => (2, j))) ++ (2, i) :: tail := by
  have h2 : positions 2 n = List.range (n - 1) := by
    simp [positions, show 2 ≤ n by omega, show n - 2 + 1 = n - 1 by omega]
  have h3 : List.range (n - 1) =
      List.range i ++ (List.range (1 + (n - 2 - i))).map (fun j => i + j) := by
    rw [← range_split, show i + (1 + (n - 2 - i)) = n - 1 by omega]
  have h4 : List.range (1 + (n - 2 - i)) =
      0 :: (List.range (n - 2 - i)).map (fun j => 1 + j) := by
    rw [range_split 1 (n - 2 - i)]
    rfl
  have h5 : lengthPairs 2 n =
      (List.range i).map (fun j => (2, j)) ++
        (2, i) :: (List.range (n - 2 - i)).map (fun j => (2, i + (1 + j))) := by
    simp only [lengthPairs, h2, h3, h4, List.map_append, List.map_cons,
      List.map_map, Function.comp]
    norm_num
    omega
  refine ⟨((List.range (n - 2 - i)).map (fun j => (2, i + (1 + j)))) ++
    lengthPairs 1 n, ?_⟩
  simp [scanPairs, h5, List.append_assoc]

theorem competingFree_spec {d : KeywordDetector} {ws : List Word} {i : ℕ}
    (h : competingFree d ws i = true) :
    ∀ L j, L ∈ ([2, 3, 4] : List ℕ) → j ∈ positions L ws.length →
      ¬(L = 2 ∧ j = i) → j < i + 2 → i < j + L →
      entriesAt d ws j L = [] := by
  intro L j hL hj hself hov1 hov2
  simp only [competingFree, List.all_eq_true] at h
  have hLj := h L hL j hj
  simp only [Bool.or_eq_true, decide_eq_true_eq, Bool.not_eq_true',
    decide_eq_false_iff_not] at hLj
  rcases hLj with (h1 | h2) | h3
  · exact absurd h1 hself
  · exact absurd ⟨hov1, hov2⟩ h2
  · exact h3

theorem detect_two_word {d : KeywordDetector} {ws : List Word} {i : ℕ}
    (hmode : d.multiWordMatching = true)
    (hn : i + 2 ≤ ws.length)
    (h2 : entriesAt d ws i 2 ≠ [])
    (hfree : competingFree d ws i = true)
    (hconf : d.minConfidence ≤ calculateConfidence (phraseSlice ws i 2)) :
    ∃ m ∈ detectKeywords d ws, m.wordIndices = mkIndices i 2 ∧
      m.normalizedText = normPhrase d ws i 2 := by
  obtain ⟨tail, hsplit⟩ := scanPairs_split hn
  set P := lengthPairs 4 ws.length ++ lengthPairs 3 ws.length ++
    (List.range i).map (fun j => (2, j)) with hP
  set s0 := runPairs d ws { detected := [], processed := ∅ } P with hs0
  have havoid : ∀ j ∈ mkIndices i 2, j ∉ s0.processed := by
    apply runPairs_avoid P ?_ _ (by simp)
    intro p hp hov1 hov2
    simp only [hP, List.mem_append, lengthPairs, List.mem_map] at hp
    rcases hp with (⟨j, hj, rfl⟩ | ⟨j, hj, rfl⟩) | ⟨j, hj, rfl⟩
    · exact competingFree_spec hfree 4 j (by simp) hj (by omega) hov1 hov2
    · exact competingFree_spec hfree 3 j (by simp) hj (by omega) hov1 hov2
    · rw [List.mem_range] at hj
      have hjpos : j ∈ positions 2 ws.length := by
        simp only [positions, if_pos (show 2 ≤ ws.length by omega),
          List.mem_range]
        omega
      exact competingFree_spec hfree 2 j (by simp) hjpos
        (by rintro ⟨_, rfl⟩; omega) hov1 hov2
  have hstep := stepAt_fires (L := 2) (i := i) (s := s0) havoid h2
  have hmp : multiPass d ws = runPairs d ws (stepAt d ws 2 i s0) tail := by
    rw [multiPass, hsplit, runPairs_append, runPairs_cons]
  obtain ⟨e, he⟩ := List.exists_mem_of_ne_nil _ h2
  refine ⟨mkRecord d ws i 2 e, ?_, rfl, rfl⟩
  apply mem_detectKeywords_iff.mpr
  constructor
  · unfold rawDetect
    rw [if_pos hmode, hmp]
    apply mem_runPairs_detected
    rw [hstep]
    exact List.mem_append_right _ (List.mem_map.mpr ⟨e, he, rfl⟩)
  · exact hconf

/-! ### Claim theorems -/

set_option maxRecDepth 100000 in
/-- **C1, counterexample.** On tokens `["schwarzschild", "metric",
"tensor"]` with the relativity-only detector (default configuration), the
2-word registered phrase `"metric tensor"` starts at token 1 and token 2
(`"tensor"`) alone is also a registered 1-word phrase, yet the result
contains no match spanning tokens 1–2 and does contain a 1-word match at
token 2, inside that span: the scan of length-2 windows consumed token 1
for `"schwarzschild metric"` first, so the claimed precedence fails as
stated. -/
theorem c1_longest_match_counterexample :
    relDetector.multiWordMatching = true ∧
    entriesAt relDetector wordsSMT 1 2 ≠ [] ∧
    entriesAt relDetector wordsSMT 2 1 ≠ [] ∧
    (∀ m ∈ detectKeywords relDetector wordsSMT,
      m.wordIndices ≠ mkIndices 1 2) ∧
    (∃ m ∈ detectKeywords relDetector wordsSMT, m.wordIndices = [2]) := by
  with_unfolding_all decide

/-- **C1 (amended).** Longest-match precedence for a 2-word window, under
the two conditions the code imposes: no *other* registered phrase window
of length 2–4 may overlap the 2-word span (otherwise the greedy
longest-then-leftmost scan can consume one of its tokens first), and the
window's averaged confidence must reach `minConfidence` (the returned
list is post-filter). Then the 2-word match appears in the result and no
1-word match at either of its positions does. -/
theorem c1_longest_match_amended (d : KeywordDetector) (ws : List Word)
    (i : ℕ) (hmode : d.multiWordMatching = true)
    (hn : i + 2 ≤ ws.length)
    (h2 : entriesAt d ws i 2 ≠ [])
    (_h1 : entriesAt d ws i 1 ≠ [] ∨ entriesAt d ws (i + 1) 1 ≠ [])
    (hfree : competingFree d ws i = true)
    (hconf : d.minConfidence ≤ calculateConfidence (phraseSlice ws i 2)) :
    (∃ m ∈ detectKeywords d ws, m.wordIndices = mkIndices i 2 ∧
      m.normalizedText = normPhrase d ws i 2) ∧
    ∀ m ∈ detectKeywords d ws,
      m.wordIndices ≠ [i] ∧ m.wordIndices ≠ [i + 1] := by
  obtain ⟨m0, hm0, hw0, hn0⟩ := detect_two_word hmode hn h2 hfree hconf
  refine ⟨⟨m0, hm0, hw0, hn0⟩, ?_⟩
  intro m hm
  have hi0 : i ∈ m0.wordIndices := by
    rw [hw0]; exact mem_mkIndices.mpr ⟨le_refl i, by omega⟩
  have hi1 : i + 1 ∈ m0.wordIndices := by
    rw [hw0]; exact mem_mkIndices.mpr ⟨by omega, by omega⟩
  constructor <;> intro hbad
  · rcases detectKeywords_disjoint m hm m0 hm0 with hsame | hdisj
    · rw [hbad, hw0] at hsame
      have hlen := congrArg List.length hsame
      rw [mkIndices_length] at hlen
      simp at hlen
    · exact hdisj i (by rw [hbad]; exact List.mem_singleton.mpr rfl) hi0
  · rcases detectKeywords_disjoint m hm m0 hm0 with hsame | hdisj
    · rw [hbad, hw0] at hsame
      have hlen := congrArg List.length hsame
      rw [mkIndices_length] at hlen
      simp at hlen
    · exact hdisj (i + 1) (by rw [hbad]; exact List.mem_singleton.mpr rfl) hi1

set_option maxRecDepth 100000 in
/-- **C1, witness.** The amended precedence at tokens
`["metric", "tensor"]`, window `i = 0`, on the relativity detector. -/
theorem c1_longest_match_witness :
    (∃ m ∈ detectKeywords relDetector wordsMT,
      m.wordIndices = mkIndices 0 2 ∧
      m.normalizedText = normPhrase relDetector wordsMT 0 2) ∧
    ∀ m ∈ detectKeywords relDetector wordsMT,
      m.wordIndices ≠ [0] ∧ m.wordIndices ≠ [0 + 1] :=
  c1_longest_match_amended relDetector wordsMT 0
    (by with_unfolding_all decide) (by with_unfolding_all decide)
    (by with_unfolding_all decide)
    (Or.inr (by with_unfolding_all decide))
    (by with_unfolding_all decide) (by with_unfolding_all decide)

/-- **C2.** Non-overlap: two records of one `detectKeywords` result whose
`wordIndices` differ occupy disjoint token indices (records of the same
span — the multi-field duplicates — are the only ones sharing indices).
Holds in both matching modes and for every configuration. -/
theorem c2_nonoverlap (d : KeywordDetector) (ws : List Word)
    (m m' : DetectedKeyword) (hm : m ∈ detectKeywords d ws)
    (hm' : m' ∈ detectKeywords d ws)
    (hne : m.wordIndices ≠ m'.wordIndices) :
    ∀ j ∈ m.wordIndices, j ∉ m'.wordIndices := by
  rcases detectKeywords_disjoint m hm m' hm' with h | h
  · exact absurd h hne
  · exact h

set_option maxRecDepth 100000 in
/-- **C2, witness.** The two spans produced on
`["schwarzschild", "metric", "tensor"]` differ, and neither index of the
phrase span occurs in the 1-word span. -/
theorem c2_nonoverlap_witness :
    smtPhraseRecord.wordIndices ≠ smtTensorRecord.wordIndices ∧
    (0 : ℕ) ∉ smtTensorRecord.wordIndices ∧
    (1 : ℕ) ∉ smtTensorRecord.wordIndices := by
  refine ⟨by with_unfolding_all decide, ?_, ?_⟩
  · exact c2_nonoverlap relDetector wordsSMT smtPhraseRecord smtTensorRecord
      (by with_unfolding_all decide) (by with_unfolding_all decide)
      (by with_unfolding_all decide) 0 (by with_unfolding_all decide)
  · exact c2_nonoverlap relDetector wordsSMT smtPhraseRecord smtTensorRecord
      (by with_unfolding_all decide) (by with_unfolding_all decide)
      (by with_unfolding_all decide) 1 (by with_unfolding_all decide)

/-- **C3, counterexample.** A token with an *explicitly supplied*
confidence of `0` does not contribute its supplied value to the mean: the
JS default `word.confidence || 0.9` treats `0` as falsy, so it contributes
`0.9`. -/
theorem c3_confidence_counterexample :
    zeroConfWord.confidence = some 0 ∧
    calculateConfidence [zeroConfWord] = 9/10 ∧ (9 : ℚ)/10 ≠ 0 := by
  with_unfolding_all decide

/-- **C3 (amended).** Every match of a multi-word detection reports as
confidence the arithmetic mean of its constituent tokens' contributions;
a token without a confidence field contributes `0.9`, a token with a
supplied *nonzero* confidence contributes that value (a supplied `0` also
contributes `0.9`, being falsy in JS); and the `[0.9, 0.7]` pair averages
to exactly `0.8`. -/
theorem c3_confidence_amended (d : KeywordDetector) (ws : List Word)
    (m : DetectedKeyword) (hmode : d.multiWordMatching = true)
    (hm : m ∈ detectKeywords d ws) :
    (∃ i L, 1 ≤ L ∧ m.wordIndices = mkIndices i L ∧
      m.confidence =
        ((phraseSlice ws i L).map confContribution).sum /
          ((phraseSlice ws i L).length : ℚ)) ∧
    (∀ w : Word, w.confidence = none → confContribution w = 9/10) ∧
    (∀ w : Word, ∀ q : ℚ, w.confidence = some q → q ≠ 0 →
      confContribution w = q) ∧
    calculateConfidence confPairWords = 8/10 := by
  refine ⟨?_, ?_, ?_, ?_⟩
  · obtain ⟨i, L, hL, hL4, hiL, hne, hmem⟩ := result_prov hmode hm
    obtain ⟨e, he, hrec⟩ := List.mem_map.mp hmem
    have hlen : (phraseSlice ws i L).length = L := by
      simp only [phraseSlice, List.length_take, List.length_drop]
      omega
    have hnil : phraseSlice ws i L ≠ [] := by
      intro hc
      rw [hc] at hlen
      simp at hlen
      omega
    refine ⟨i, L, hL, by rw [← hrec]; rfl, ?_⟩
    have hc : m.confidence = calculateConfidence (phraseSlice ws i L) := by
      rw [← hrec]; rfl
    rw [hc, calculateConfidence, if_neg hnil]
  · intro w h
    simp [confContribution, h]
  · intro w q h hq
    simp [confContribution, h, hq]
  · with_unfolding_all decide

set_option maxRecDepth 100000 in
/-- **C3, witness.** The amended statement applied to the
`"metric tensor"` match on `["metric", "tensor"]`. -/
theorem c3_confidence_witness :
    (∃ i L, 1 ≤ L ∧ mtRecord.wordIndices = mkIndices i L ∧
      mtRecord.confidence =
        ((phraseSlice wordsMT i L).map confContribution).sum /
          ((phraseSlice wordsMT i L).length : ℚ)) ∧
    (∀ w : Word, w.confidence = none → confContribution w = 9/10) ∧
    (∀ w : Word, ∀ q : ℚ, w.confidence = some q → q ≠ 0 →
      confContribution w = q) ∧
    calculateConfidence confPairWords = 8/10 :=
  c3_confidence_amended relDetector wordsMT mtRecord
    (by with_unfolding_all decide) (by with_unfolding_all decide)

/-- **C4.** Threshold filtering: no returned match has confidence
strictly below `minConfidence`; every match accumulated during matching
whose confidence reaches the threshold is returned; and
`getStatistics(result).total` counts exactly the matches that passed the
threshold. -/
theorem c4_threshold (d : KeywordDetector) (ws : List Word) :
    (∀ m ∈ detectKeywords d ws, d.minConfidence ≤ m.confidence) ∧
    (∀ m ∈ rawDetect d ws, d.minConfidence ≤ m.confidence →
      m ∈ detectKeywords d ws) ∧
    (getStatistics (detectKeywords d ws)).total =
      ((rawDetect d ws).filter
        (fun m => d.minConfidence ≤ m.confidence)).length := by
  refine ⟨?_, ?_, ?_⟩
  · intro m hm
    exact (mem_detectKeywords_iff.mp hm).2
  · intro m hm hc
    exact mem_detectKeywords_iff.mpr ⟨hm, hc⟩
  · show (detectKeywords d ws).length = _
    exact (List.mergeSort_perm _ posLE).length_eq

set_option maxRecDepth 100000 in
/-- **C4, witness.** On `["schwarzschild", "metric", "tensor"]`: the
`"tensor"` record passes the default threshold and is returned, and the
statistics total equals the number of threshold-passing matches, `2`. -/
theorem c4_threshold_witness :
    relDetector.minConfidence ≤ smtTensorRecord.confidence ∧
    smtTensorRecord ∈ detectKeywords relDetector wordsSMT ∧
    (getStatistics (detectKeywords relDetector wordsSMT)).total = 2 := by
  refine ⟨by with_unfolding_all decide, ?_, ?_⟩
  · exact (c4_threshold relDetector wordsSMT).2.1 smtTensorRecord
      (by with_unfolding_all decide) (by with_unfolding_all decide)
  · rw [(c4_threshold relDetector wordsSMT).2.2]
    with_unfolding_all decide

/-- **C5, counterexample.** An explicitly supplied `minConfidence` of `0`
(a value inside `[0,1]`) is *not* kept: the JS constructor's
`config.minConfidence || 0.7` treats it as falsy and resolves to `0.7`. -/
theorem c5_config_counterexample :
    zeroMinConfig.minConfidence = some 0 ∧
    (mkDetector zeroMinConfig).minConfidence = 7/10 ∧
    (7 : ℚ)/10 ≠ 0 := by
  with_unfolding_all decide

/-- **C5 (amended).** Configuration resolution: a supplied *nonzero*
`minConfidence` is kept, an omitted one resolves to `0.7`, and a supplied
`0` also resolves to `0.7` (JS falsy default); `caseSensitive` defaults
to `false` and `multiWordMatching` defaults to `true` when omitted. -/
theorem c5_config_amended (config : DetectorConfig) :
    (config.minConfidence = none →
      (mkDetector config).minConfidence = 7/10) ∧
    (config.minConfidence = some 0 →
      (mkDetector config).minConfidence = 7/10) ∧
    (∀ v : ℚ, config.minConfidence = some v → v ≠ 0 →
      (mkDetector config).minConfidence = v) ∧
    (config.caseSensitive = none →
      (mkDetector config).caseSensitive = false) ∧
    (config.multiWordMatching = none →
      (mkDetector config).multiWordMatching = true) := by
  refine ⟨?_, ?_, ?_, ?_, ?_⟩
  · intro h; simp [mkDetector, h]
  · intro h; simp [mkDetector, h]
  · intro v h hv; simp [mkDetector, h, hv]
  · intro h; simp [mkDetector, h]
  · intro h; simp [mkDetector, h]

/-- **C5, witness.** A supplied `minConfidence` of `1/2` is kept. -/
theorem c5_config_witness :
    (mkDetector halfMinConfig).minConfidence = 1/2 :=
  (c5_config_amended halfMinConfig).2.2.1 (1/2) rfl (by norm_num)

/-- **C6.** Input validation: the checked entry point throws the
input-validation error exactly on a `null`/`undefined`/non-array
argument (and returns no results then); an empty array is not an error:
`detectKeywords([])` is `[]` and `getStatistics([])` is
`{total: 0, byField: {}, averageConfidence: 0, uniqueTerms: 0}`. -/
theorem c6_input_validation (d : KeywordDetector) :
    (∀ a : Option (List Word),
      detectKeywordsChecked d a =
        Except.error "words must be an array of word objects" ↔ a = none) ∧
    (∀ ws : List Word, detectKeywordsChecked d (some ws) =
      Except.ok (detectKeywords d ws)) ∧
    detectKeywords d [] = [] ∧
    getStatistics [] =
      { total := 0, byField := [], averageConfidence := 0,
        uniqueTerms := 0 } := by
  have hraw : rawDetect d [] = [] := by
    unfold rawDetect
    cases hmw : d.multiWordMatching
    · rfl
    · rfl
  refine ⟨?_, fun ws => rfl, ?_, rfl⟩
  · intro a
    cases a <;> simp [detectKeywordsChecked]
  · simp [detectKeywords, hraw]

/-- **C7.** Multi-field fan-out: for any returned match `m` of a
multi-word detection, the returned records occupying `m`'s span are in
bijection with the index bucket registered under `m`'s normalized phrase —
same count, the `(field, keyword)` pairs are exactly the bucket's entries
(as a permutation), and all those records share `m`'s `wordIndices`,
`position`, and `confidence`. -/
theorem c7_fanout (d : KeywordDetector) (ws : List Word)
    (m : DetectedKeyword) (hmode : d.multiWordMatching = true)
    (hm : m ∈ detectKeywords d ws) :
    (((detectKeywords d ws).filter
        (fun r => r.wordIndices = m.wordIndices)).length =
      (lookupIdx d.keywordIndex m.normalizedText).length) ∧
    ((((detectKeywords d ws).filter
        (fun r => r.wordIndices = m.wordIndices)).map
        (fun r => (r.field, r.text))).Perm
      ((lookupIdx d.keywordIndex m.normalizedText).map
        (fun e => (e.field, e.keyword)))) ∧
    ∀ r ∈ detectKeywords d ws, r.wordIndices = m.wordIndices →
      r.position = m.position ∧ r.confidence = m.confidence ∧
      r.normalizedText = m.normalizedText := by
  obtain ⟨i, L, hL, hwi, hnt, hlook, hperm⟩ := result_filter_span hmode hm
  have hmself : m ∈ (detectKeywords d ws).filter
      (fun r => r.wordIndices = m.wordIndices) :=
    List.mem_filter.mpr ⟨hm, by simp⟩
  obtain ⟨em, hem, hmrec⟩ := List.mem_map.mp (hperm.mem_iff.mp hmself)
  refine ⟨?_, ?_, ?_⟩
  · rw [hlook, hperm.length_eq, List.length_map]
  · rw [hlook]
    have hmap := hperm.map (fun r => (r.field, r.text))
    rw [List.map_map] at hmap
    exact hmap
  · intro r hr hspan
    have hrf : r ∈ (detectKeywords d ws).filter
        (fun x => x.wordIndices = m.wordIndices) :=
      List.mem_filter.mpr ⟨hr, by simp [hspan]⟩
    obtain ⟨e', he', hrec⟩ := List.mem_map.mp (hperm.mem_iff.mp hrf)
    rw [← hrec, ← hmrec]
    exact ⟨rfl, rfl, rfl⟩

set_option maxRecDepth 100000 in
/-- **C7, witness.** The fan-out property at the
`"schwarzschild metric"` match on
`["schwarzschild", "metric", "tensor"]` (a bucket with one entry, one
returned record for that span). -/
theorem c7_fanout_witness :
    (((detectKeywords relDetector wordsSMT).filter
        (fun r => r.wordIndices = smtPhraseRecord.wordIndices)).length =
      (lookupIdx relDetector.keywordIndex
        smtPhraseRecord.normalizedText).length) ∧
    ((((detectKeywords relDetector wordsSMT).filter
        (fun r => r.wordIndices = smtPhraseRecord.wordIndices)).map
        (fun r => (r.field, r.text))).Perm
      ((lookupIdx relDetector.keywordIndex
        smtPhraseRecord.normalizedText).map
        (fun e => (e.field, e.keyword)))) ∧
    ∀ r ∈ detectKeywords relDetector wordsSMT,
      r.wordIndices = smtPhraseRecord.wordIndices →
      r.position = smtPhraseRecord.position ∧
      r.confidence = smtPhraseRecord.confidence ∧
      r.normalizedText = smtPhraseRecord.normalizedText :=
  c7_fanout relDetector wordsSMT smtPhraseRecord
    (by with_unfolding_all decide) (by with_unfolding_all decide)

/-- **C8.** Idempotence and purity of `Detect`: a call returns the
receiver unchanged (the method body never assigns to `this`), a second
call on the resulting state yields the same list, and the output does not
depend on the one instance field the matcher never reads
(`targetFields`), so all matching state is local to the call. -/
theorem c8_idempotent (d : KeywordDetector) (ws : List Word) :
    (detectKeywordsCall d ws).2 = d ∧
    (detectKeywordsCall ((detectKeywordsCall d ws).2) ws).1 =
      (detectKeywordsCall d ws).1 ∧
    ∀ tf, detectKeywords { d with targetFields := tf } ws =
      detectKeywords d ws := by
  refine ⟨rfl, rfl, ?_⟩
  intro tf
  cases d
  rfl

/-- **C9, counterexample.** The JavaScript and TypeScript detectors are
not equivalent on every well-typed configuration: with an explicit
`minConfidence: 0` the JS constructor (`||`) resolves to `0.7` while the
TS constructor (`??`) keeps `0`, and `getConfig` already differs. -/
theorem c9_equivalence_counterexample :
    getConfig (mkDetector zeroMinConfig) ≠
      getConfig (mkDetectorTS zeroMinConfig) := by
  with_unfolding_all decide

/-- **C9 (amended).** Whenever the supplied configuration does not set
`minConfidence` to exactly `0`, the two constructors resolve to the same
detector state, and therefore `detectKeywords`, `getConfig`, and the
checked entry point agree on every input (`getStatistics` is textually
the same function in both sources and is embedded once). -/
theorem c9_equivalence_amended (config : DetectorConfig)
    (h : config.minConfidence ≠ some 0) :
    mkDetector config = mkDetectorTS config ∧
    (∀ ws, detectKeywords (mkDetector config) ws =
      detectKeywords (mkDetectorTS config) ws) ∧
    getConfig (mkDetector config) = getConfig (mkDetectorTS config) ∧
    ∀ a, detectKeywordsChecked (mkDetector config) a =
      detectKeywordsChecked (mkDetectorTS config) a := by
  have hd : mkDetector config = mkDetectorTS config := by
    obtain ⟨tf, mc, cs, mw⟩ := config
    simp only [mkDetector, mkDetectorTS, KeywordDetector.mk.injEq]
    refine ⟨trivial, ?_, trivial, ?_, trivial⟩
    · cases mc with
      | none => rfl
      | some v =>
        have hv : v ≠ 0 := by
          rintro rfl
          exact h rfl
        simp [hv]
    · cases mw <;> rfl
  exact ⟨hd, fun ws => by rw [hd], by rw [hd], fun a => by rw [hd]⟩

/-- **C9, witness.** With `minConfidence: 1/2` both constructors build
the identical detector. -/
theorem c9_equivalence_witness :
    mkDetector halfMinConfig = mkDetectorTS halfMinConfig :=
  (c9_equivalence_amended halfMinConfig (by with_unfolding_all decide)).1

/-- **C10.** Boundary-vs-core field-name case mismatch: a requested field
name that is not a dictionary key but whose lowercased-and-trimmed form
is one passes the boundary validation (`hasField` accepts it, so
`handleDetect` reports no invalid fields), while the core's exact-key
lookup `FIELD_KEYWORDS[field]` finds nothing, so building the index over
that name indexes zero keywords from it. -/
theorem c10_field_case_mismatch (name : String)
    (habs : name ∉ getAllFields)
    (hnorm : jsTrim (jsToLower name) ∈ getAllFields) :
    hasField name = true ∧
    invalidFieldsOf [name] = [] ∧
    fieldKeywordsAt name = none ∧
    ∀ fs cs, buildKeywordIndex (fs ++ [name]) cs = buildKeywordIndex fs cs := by
  have hhf : hasField name = true := by
    simp only [hasField, decide_eq_true_eq]
    exact hnorm
  have hfk : fieldKeywordsAt name = none := by
    unfold fieldKeywordsAt
    rw [List.find?_eq_none.mpr]
    · rfl
    · intro p hp
      simp only [decide_eq_true_eq]
      intro hc
      exact habs (by
        rw [← hc]
        exact List.mem_map.mpr ⟨p, hp, rfl⟩)
  refine ⟨hhf, ?_, hfk, ?_⟩
  · simp [invalidFieldsOf, hhf]
  · intro fs cs
    unfold buildKeywordIndex
    rw [List.foldl_append]
    simp [hfk]

/-- **C10, witness.** The name `"Topology"`: accepted by the boundary,
invisible to the core index build. -/
theorem c10_field_case_mismatch_witness :
    hasField "Topology" = true ∧
    invalidFieldsOf ["Topology"] = [] ∧
    fieldKeywordsAt "Topology" = none ∧
    buildKeywordIndex ["Topology"] false = buildKeywordIndex [] false := by
  have h := c10_field_case_mismatch "Topology"
    (by with_unfolding_all decide) (by with_unfolding_all decide)
  refine ⟨h.1, h.2.1, h.2.2.1, ?_⟩
  have h4 := h.2.2.2 [] false
  simpa using h4
